import Mathlib

/-!
Shallow embedding of the reconciliation core of quant-board-core
(src/app/services/stock_service.py, src/app/routers/stocks.py,
src/app/models/stock_model.py), together with theorems settling the
specification claims about it.

Conventions of the embedding:
* calendar dates are day ordinals (`Nat`); the source only ever compares
  dates with `<`, `<=`, `>=`, `==`;
* an externally sourced Python float is `ExtFloat`: NaN, +inf, -inf, or a
  finite value modelled as a rational;
* a nullable column / optional value is `Option`;
* the relational store is `Store`: the three tables as lists in insertion
  order plus the autoincrement counter for `stocks.id`;
* SQL queries that only `filter` are embedded as list filters; the
  `order_by` clauses of the read queries are dropped where no claim and no
  caller inspects the order (they are noted at each definition).
-/

/-- Calendar date as a day ordinal; comparisons agree with `datetime.date`. -/
abbrev PyDate := Nat

/-- An externally sourced Python float: non-finite sentinels or a finite
value (modelled as a rational). -/
inductive ExtFloat where
  | nan
  | posInf
  | negInf
  | finite (q : ℚ)
deriving DecidableEq, Repr

/-- `math.isfinite` on such a value. -/
def mathIsFinite : ExtFloat → Bool
  | .finite _ => true
  | _ => false

/-- Truncation toward zero, the behaviour of Python `int()` on a finite
float. -/
def ratTrunc (q : ℚ) : Int :=
  if 0 ≤ q then ⌊q⌋ else ⌈q⌉

/-- Python `int(x)` on an `ExtFloat`; only defined (some) on finite values,
matching the fact that `int()` raises on NaN/inf. -/
def pyInt : ExtFloat → Option Int
  | .finite q => some (ratTrunc q)
  | _ => none

/-- Embeds `_clean_financial_value` (src/app/services/stock_service.py:11-20):
`None` or non-finite becomes `None`; otherwise `int(value)`. The
`try/except (ValueError, TypeError)` around `int(value)` can never fire for
a finite float, so the success branch of `pyInt` is always taken there. -/
def cleanFinancialValue (value : Option ExtFloat) : Option Int :=
  match value with
  | none => none
  | some v => if mathIsFinite v = false then none else pyInt v

/-- A row of the `stocks` table (src/app/models/stock_model.py, class
`Stock`); the `created_at`/`updated_at` audit columns carry no claim and
are omitted. -/
structure Stock where
  id : Nat
  code : String
  name : String
  industry : Option String
  sector : Option String
  country : Option String
  exchange : Option String
  currency : Option String
  market_cap : Option Int
  website : Option String
deriving DecidableEq, Repr

/-- A row of the `daily_stock_prices` table (class `DailyStockPrice`);
`id` and `created_at` carry no claim and are omitted (rows are keyed in the
claims by `(stock_id, date)`). -/
structure DailyStockPrice where
  stock_id : Nat
  date : PyDate
  «open» : Option ExtFloat
  high : Option ExtFloat
  low : Option ExtFloat
  close : Option ExtFloat
  adj_close : Option ExtFloat
  volume : Option Int
  dividends : Option ExtFloat
  stock_splits : Option ExtFloat
deriving DecidableEq, Repr

/-- A row of the `financial_statements` table (class `FinancialStatement`);
`id` and the audit columns are omitted. -/
structure FinancialStatement where
  stock_id : Nat
  period_type : String
  period_end_date : PyDate
  total_revenue : Option Int
  cost_of_revenue : Option Int
  gross_profit : Option Int
  operating_income : Option Int
  net_income : Option Int
  total_assets : Option Int
  total_liabilities : Option Int
  shareholder_equity : Option Int
  free_cash_flow : Option Int
deriving DecidableEq, Repr

/-- Schema `StockCreate` (src/app/schemas/stock_schema.py): the metadata
fields supplied to a stock insert or upsert. -/
structure StockCreate where
  code : String
  name : String
  industry : Option String
  sector : Option String
  country : Option String
  exchange : Option String
  currency : Option String
  market_cap : Option Int
  website : Option String
deriving DecidableEq, Repr

/-- Schema `DailyStockPriceCreate`: a price row without its owning stock. -/
structure DailyStockPriceCreate where
  date : PyDate
  «open» : Option ExtFloat
  high : Option ExtFloat
  low : Option ExtFloat
  close : Option ExtFloat
  adj_close : Option ExtFloat
  volume : Option Int
  dividends : Option ExtFloat
  stock_splits : Option ExtFloat
deriving DecidableEq, Repr

/-- Schema `FinancialStatementCreate`: a statement row without its owning
stock. -/
structure FinancialStatementCreate where
  period_type : String
  period_end_date : PyDate
  total_revenue : Option Int
  cost_of_revenue : Option Int
  gross_profit : Option Int
  operating_income : Option Int
  net_income : Option Int
  total_assets : Option Int
  total_liabilities : Option Int
  shareholder_equity : Option Int
  free_cash_flow : Option Int
deriving DecidableEq, Repr

/-- The relational store: the three tables in insertion order plus the
autoincrement counter backing `stocks.id`. -/
structure Store where
  stocks : List Stock
  daily_prices : List DailyStockPrice
  financial_statements : List FinancialStatement
  next_id : Nat
deriving DecidableEq, Repr

/-- The store of a fresh database. -/
def emptyStore : Store :=
  { stocks := [], daily_prices := [], financial_statements := [], next_id := 1 }

/-- Embeds `StockService.get_stock_by_code`
(src/app/services/stock_service.py:27-35): first stock whose `code` equals
the argument. -/
def getStockByCode (db : Store) (code : String) : Option Stock :=
  db.stocks.find? (fun s => s.code == code)

/-- Builds the ORM `Stock` row from a `StockCreate`, assigning the next
autoincrement id (the `Stock(**stock.model_dump())` construction plus the
database-assigned primary key). -/
def Stock.ofCreate (id : Nat) (d : StockCreate) : Stock :=
  { id := id, code := d.code, name := d.name, industry := d.industry,
    sector := d.sector, country := d.country, exchange := d.exchange,
    currency := d.currency, market_cap := d.market_cap, website := d.website }

/-- Embeds `StockService.create_stock` (lines 37-45): insert a new stock row
and return it (after `commit`/`refresh`). -/
def createStock (db : Store) (d : StockCreate) : Store × Stock :=
  let s := Stock.ofCreate db.next_id d
  ({ db with stocks := db.stocks ++ [s], next_id := db.next_id + 1 }, s)

/-- Builds the ORM `DailyStockPrice` row from a create schema and its owning
stock id. -/
def DailyStockPrice.ofCreate (stock_id : Nat) (p : DailyStockPriceCreate) :
    DailyStockPrice :=
  { stock_id := stock_id, date := p.date, «open» := p.«open», high := p.high,
    low := p.low, close := p.close, adj_close := p.adj_close,
    volume := p.volume, dividends := p.dividends,
    stock_splits := p.stock_splits }

/-- Embeds `StockService.add_daily_prices` (lines 47-57): bulk insert of
price rows for one stock. -/
def addDailyPrices (db : Store) (stock_id : Nat)
    (prices : List DailyStockPriceCreate) : Store :=
  { db with daily_prices :=
      db.daily_prices ++ prices.map (DailyStockPrice.ofCreate stock_id) }

/-- Embeds `StockService.get_daily_prices` (lines 59-75): prices of one
stock, optionally restricted to a date range. The source additionally
orders the result by ascending date; no claim inspects the order, so the
insertion order is kept here. -/
def getDailyPrices (db : Store) (stock_id : Nat)
    (start_date end_date : Option PyDate) : List DailyStockPrice :=
  let q := db.daily_prices.filter (fun p => p.stock_id == stock_id)
  let q := match start_date with
    | some sd => q.filter (fun p => decide (sd ≤ p.date))
    | none => q
  match end_date with
  | some ed => q.filter (fun p => decide (p.date ≤ ed))
  | none => q

/-- Builds the ORM `FinancialStatement` row from a create schema and its
owning stock id. -/
def FinancialStatement.ofCreate (stock_id : Nat)
    (d : FinancialStatementCreate) : FinancialStatement :=
  { stock_id := stock_id, period_type := d.period_type,
    period_end_date := d.period_end_date, total_revenue := d.total_revenue,
    cost_of_revenue := d.cost_of_revenue, gross_profit := d.gross_profit,
    operating_income := d.operating_income, net_income := d.net_income,
    total_assets := d.total_assets, total_liabilities := d.total_liabilities,
    shareholder_equity := d.shareholder_equity,
    free_cash_flow := d.free_cash_flow }

/-- Embeds `StockService.create_financial_statement` (lines 85-97): insert a
new statement row and return it. This is also the operation behind the
manual route `POST /stocks/{code}/financials/`
(src/app/routers/stocks.py:162-180), which checks only that the stock
exists — it performs no check against an existing (period_type,
period_end_date) key. -/
def createFinancialStatement (db : Store) (stock_id : Nat)
    (d : FinancialStatementCreate) : Store × FinancialStatement :=
  let row := FinancialStatement.ofCreate stock_id d
  ({ db with financial_statements := db.financial_statements ++ [row] }, row)

/-- Embeds `StockService.get_financial_statements` (lines 99-122):
statements of one stock, optionally restricted by period type and period
end date. The source additionally orders the result by descending period
end date; no claim inspects the order, so the insertion order is kept
here. -/
def getFinancialStatements (db : Store) (stock_id : Nat)
    (period_type : Option String) (period_end_date : Option PyDate) :
    List FinancialStatement :=
  let q := db.financial_statements.filter (fun s => s.stock_id == stock_id)
  let q := match period_type with
    | some pt => q.filter (fun s => s.period_type == pt)
    | none => q
  match period_end_date with
  | some d => q.filter (fun s => s.period_end_date == d)
  | none => q

/-- One row of a fetched yfinance financials DataFrame (after the transpose
in `_save_financials_from_df`): the period end date (the column label,
taken to `.date()`) and the numeric cells; a missing cell (`row.get`) is
`none`. -/
structure FinRow where
  period_end_date : PyDate
  total_revenue : Option ExtFloat
  cost_of_revenue : Option ExtFloat
  gross_profit : Option ExtFloat
  operating_income : Option ExtFloat
  net_income : Option ExtFloat
  total_assets : Option ExtFloat
  total_liabilities : Option ExtFloat
  shareholder_equity : Option ExtFloat
  free_cash_flow : Option ExtFloat
deriving DecidableEq, Repr

/-- The `FinancialStatementCreate` built for one fetched row in
`_save_financials_from_df` (lines 141-157): every numeric field passes
through `_clean_financial_value`. -/
def statementCreateOfRow (period_type : String) (r : FinRow) :
    FinancialStatementCreate :=
  { period_type := period_type, period_end_date := r.period_end_date,
    total_revenue := cleanFinancialValue r.total_revenue,
    cost_of_revenue := cleanFinancialValue r.cost_of_revenue,
    gross_profit := cleanFinancialValue r.gross_profit,
    operating_income := cleanFinancialValue r.operating_income,
    net_income := cleanFinancialValue r.net_income,
    total_assets := cleanFinancialValue r.total_assets,
    total_liabilities := cleanFinancialValue r.total_liabilities,
    shareholder_equity := cleanFinancialValue r.shareholder_equity,
    free_cash_flow := cleanFinancialValue r.free_cash_flow }

/-- The body of the per-row loop of `StockService._save_financials_from_df`
(lines 131-158): query for an existing statement with the same
(stock, period_type, period_end_date) key; if one exists skip the row,
otherwise insert the sanitized row. -/
def saveFinRow (stock_id : Nat) (period_type : String) (acc : Store)
    (r : FinRow) : Store :=
  let existing :=
    getFinancialStatements acc stock_id (some period_type)
      (some r.period_end_date)
  if existing.isEmpty = false then acc
  else (createFinancialStatement acc stock_id
      (statementCreateOfRow period_type r)).1

/-- Embeds `StockService._save_financials_from_df` (lines 124-159): early
return on an empty DataFrame, otherwise the per-row loop over the
transposed frame. -/
def saveFinancialsFromDf (db : Store) (stock_id : Nat)
    (financials_df : List FinRow) (period_type : String) : Store :=
  if financials_df.isEmpty then db
  else financials_df.foldl (saveFinRow stock_id period_type) db

/-- One fetched yfinance history row (`ticker.history(period="max")`): its
index converted with `.date()` plus the numeric cells read with
`row.get`; a missing column is `none`. -/
structure HistRow where
  date : PyDate
  «open» : Option ExtFloat
  high : Option ExtFloat
  low : Option ExtFloat
  close : Option ExtFloat
  adj_close : Option ExtFloat
  volume : Option ExtFloat
  dividends : Option ExtFloat
  stock_splits : Option ExtFloat
deriving DecidableEq, Repr

/-- The `DailyStockPriceCreate` built for one fetched history row
(src/app/services/stock_service.py:219-231): `volume` passes through
`_clean_financial_value`; `dividends` and `stock_splits` default to `0.0`
when the column is missing; the other cells are stored raw. -/
def priceCreateOfRow (r : HistRow) : DailyStockPriceCreate :=
  { date := r.date, «open» := r.«open», high := r.high, low := r.low,
    close := r.close, adj_close := r.adj_close,
    volume := cleanFinancialValue r.volume,
    dividends := some (r.dividends.getD (ExtFloat.finite 0)),
    stock_splits := some (r.stock_splits.getD (ExtFloat.finite 0)) }

/-- One step of the `order_by(date.desc()).first()` query result: keep a
row of maximal date, preferring the earlier row on ties (which row wins a
tie is database-dependent; only its `date` is ever consulted). -/
def maxByDate (acc : Option DailyStockPrice) (p : DailyStockPrice) :
    Option DailyStockPrice :=
  match acc with
  | none => some p
  | some q => if q.date < p.date then some p else some q

/-- Embeds the latest-price query of `fetch_and_save_yfinance_data`
(lines 208-213): a stored price row of maximal date for the stock, or
`none` when the stock has no price history. -/
def latestPrice (db : Store) (stock_id : Nat) : Option DailyStockPrice :=
  (db.daily_prices.filter (fun p => p.stock_id == stock_id)).foldl
    maxByDate none

/-- The latest persisted price date of a stock, written directly from the
claims' words: the maximum date among the stock's stored price rows, or
`none` when there are none. Used to state the claims; the merge itself
uses `latestPrice`. -/
def latestPersistedDate (db : Store) (stock_id : Nat) : Option PyDate :=
  ((db.daily_prices.filter (fun p => p.stock_id == stock_id)).map
    (fun p => p.date)).max?

/-- The claims' filter predicate: a fetched entry survives iff its date is
strictly greater than the latest persisted date, or the stock has no
persisted price history. -/
def isNewFor (db : Store) (stock_id : Nat) (r : HistRow) : Bool :=
  match latestPersistedDate db stock_id with
  | none => true
  | some d => decide (d < r.date)

/-- Embeds the price-merge block of
`StockService.fetch_and_save_yfinance_data` (lines 206-236): skip when the
fetched history is empty; otherwise read the latest stored price, keep the
fetched rows dated strictly after it (all rows when there is none), bulk
insert them, and report their count (the `Saved N new daily price records`
log line; nothing is reported on an empty history, rendered here as
count 0). -/
def mergePrices (db : Store) (stock_id : Nat) (hist : List HistRow) :
    Store × Nat :=
  if hist.isEmpty then (db, 0)
  else
    let latest := latestPrice db stock_id
    let prices_to_add :=
      (hist.filter (fun r =>
        match latest with
        | some lp => decide (lp.date < r.date)
        | none => true)).map priceCreateOfRow
    let db1 :=
      if prices_to_add.isEmpty then db
      else addDailyPrices db stock_id prices_to_add
    (db1, prices_to_add.length)

/-- The `ticker.info` dictionary as consumed by
`fetch_and_save_yfinance_data` (lines 169-192): whether the "symbol" key is
present, and the metadata values read with `info.get` (a key that is
absent is `none`). -/
structure InfoDict where
  hasSymbol : Bool
  longName : Option String
  shortName : Option String
  industry : Option String
  sector : Option String
  country : Option String
  exchange : Option String
  currency : Option String
  marketCap : Option ExtFloat
  website : Option String
deriving DecidableEq, Repr

/-- The provider's response for one ticker symbol (`yf.Ticker`): `info`
(`none` when `ticker.info` is empty/falsy), the full price history, and the
annual and quarterly financials DataFrames. -/
structure Ticker where
  info : Option InfoDict
  history : List HistRow
  financials : List FinRow
  quarterly_financials : List FinRow
deriving DecidableEq, Repr

/-- The `stock_data_dict` built in `fetch_and_save_yfinance_data`
(lines 182-192): name falls back from `longName` to `shortName` to the
ticker symbol; `marketCap` passes through `_clean_financial_value`. -/
def stockDataDict (ticker_symbol : String) (i : InfoDict) : StockCreate :=
  { code := ticker_symbol,
    name := i.longName.getD (i.shortName.getD ticker_symbol),
    industry := i.industry, sector := i.sector, country := i.country,
    exchange := i.exchange, currency := i.currency,
    market_cap := cleanFinancialValue i.marketCap, website := i.website }

/-- The ORM in-place update plus `commit` of the found stock (lines
194-198): the stored row with the same primary key is replaced. -/
def updateStock (db : Store) (s : Stock) : Store :=
  { db with stocks := db.stocks.map (fun t => if t.id == s.id then s else t) }

/-- The metadata-upsert step of `fetch_and_save_yfinance_data`
(lines 180-204): look the stock up by code; if found, overwrite every field
of `stock_data_dict` on it (the `setattr` loop) and commit; otherwise
create a new stock from those fields. Returns the updated store and the
up-to-date stock. -/
def upsertStock (db : Store) (ticker_symbol : String) (i : InfoDict) :
    Store × Stock :=
  let d := stockDataDict ticker_symbol i
  match getStockByCode db ticker_symbol with
  | some stock =>
      let stock' : Stock :=
        { stock with
          code := d.code,
          name := d.name,
          industry := d.industry,
          sector := d.sector,
          country := d.country,
          exchange := d.exchange,
          currency := d.currency,
          market_cap := d.market_cap,
          website := d.website }
      (updateStock db stock', stock')
  | none => createStock db d

/-- Embeds `StockService.fetch_and_save_yfinance_data` (lines 161-244)
given the provider's response for the symbol: early `None` return when
`ticker.info` is empty or lacks the "symbol" key (before any store
access); otherwise metadata upsert, price merge, then the annual and
quarterly statement merges. The source's `if not stock: return None` after
the upsert is unreachable (the upsert always yields a stock) and is
dropped. -/
def fetchAndSaveYfinanceData (db : Store) (ticker_symbol : String)
    (ticker : Ticker) : Store × Option Stock :=
  match ticker.info with
  | none => (db, none)
  | some info =>
    if info.hasSymbol = false then (db, none)
    else
      let r1 := upsertStock db ticker_symbol info
      let r2 := mergePrices r1.1 r1.2.id ticker.history
      let db3 := saveFinancialsFromDf r2.1 r1.2.id ticker.financials "annual"
      let db4 :=
        saveFinancialsFromDf db3 r1.2.id ticker.quarterly_financials
          "quarterly"
      (db4, some r1.2)

/-- The outcome of processing one symbol's provider interaction inside the
bulk job: either the provider produced ticker data, or an exception was
raised for that symbol (caught by the per-symbol `except` of
`run_bulk_fetch_job`; the store is left as it was for that symbol). -/
inductive FetchOutcome where
  | ok (t : Ticker)
  | error
deriving Repr

/-- The body of the per-symbol loop of `run_bulk_fetch_job`
(lines 261-272): an exception is caught and counted as a failure; a `None`
result (NotFound) is counted as a failure; a returned stock is counted as a
success. -/
def bulkStep (provider : String → FetchOutcome)
    (acc : Store × Nat × Nat) (ticker : String) : Store × Nat × Nat :=
  match provider ticker with
  | .error => (acc.1, acc.2.1, acc.2.2 + 1)
  | .ok t =>
      let r := fetchAndSaveYfinanceData acc.1 ticker t
      match r.2 with
      | some _ => (r.1, acc.2.1 + 1, acc.2.2)
      | none => (r.1, acc.2.1, acc.2.2 + 1)

/-- Embeds `run_bulk_fetch_job` (src/app/services/stock_service.py:246-279)
given the provider's behaviour per symbol: iterate the symbols
sequentially, containing each symbol's failure, and accumulate the
`success_count` / `failure_count` counters reported in the job's final
summary log line. Returns the final store with those two counters. -/
def runBulkFetchJob (db : Store) (provider : String → FetchOutcome)
    (ticker_symbols : List String) : Store × Nat × Nat :=
  ticker_symbols.foldl (bulkStep provider) (db, 0, 0)

/-- The price-table key-uniqueness invariant from the spec's data model: at
most one price record per (security, calendar date). -/
def pricesKeyUnique (db : Store) : Prop :=
  db.daily_prices.Pairwise
    (fun p q => ¬(p.stock_id = q.stock_id ∧ p.date = q.date))

/-- The statement-table key-uniqueness invariant from the spec's data
model: at most one statement per (security, period type, period end
date). -/
def statementsKeyUnique (db : Store) : Prop :=
  db.financial_statements.Pairwise
    (fun p q => ¬(p.stock_id = q.stock_id ∧ p.period_type = q.period_type ∧
      p.period_end_date = q.period_end_date))

instance (db : Store) : Decidable (pricesKeyUnique db) := by
  unfold pricesKeyUnique
  infer_instance

instance (db : Store) : Decidable (statementsKeyUnique db) := by
  unfold statementsKeyUnique
  infer_instance

/-- A stored price row built from one fetched history row for a given
stock: the composition the merge applies before the batch insert. -/
def priceRowOf (stock_id : Nat) (r : HistRow) : DailyStockPrice :=
  DailyStockPrice.ofCreate stock_id (priceCreateOfRow r)

theorem foldl_maxByDate_some (ps : List DailyStockPrice)
    (q : DailyStockPrice) :
    (ps.foldl maxByDate (some q)).map DailyStockPrice.date =
      some ((ps.map DailyStockPrice.date).foldl max q.date) := by
  induction ps generalizing q with
  | nil => rfl
  | cons r ps ih =>
    simp only [List.foldl_cons, List.map_cons, maxByDate]
    by_cases h : q.date < r.date
    · rw [if_pos h, ih r, max_eq_right h.le]
    · rw [if_neg h, ih q, max_eq_left (not_lt.mp h)]

theorem latestPrice_date_eq (db : Store) (sid : Nat) :
    (latestPrice db sid).map DailyStockPrice.date =
      latestPersistedDate db sid := by
  unfold latestPrice latestPersistedDate
  cases h : db.daily_prices.filter (fun p => p.stock_id == sid) with
  | nil => rfl
  | cons p ps =>
    rw [List.foldl_cons, List.map_cons]
    show (ps.foldl maxByDate (maxByDate none p)).map DailyStockPrice.date = _
    rw [show maxByDate none p = some p from rfl, foldl_maxByDate_some]
    rfl

theorem latestPersistedDate_eq_none_iff (db : Store) (sid : Nat) :
    latestPersistedDate db sid = none ↔
      ∀ p ∈ db.daily_prices, p.stock_id ≠ sid := by
  unfold latestPersistedDate
  rw [List.max?_eq_none_iff, List.map_eq_nil_iff, List.filter_eq_nil_iff]
  constructor
  · intro h p hp hsid
    exact h p hp (by simp [hsid])
  · intro h p hp hbeq
    exact h p hp (by simpa using hbeq)

theorem latestPersistedDate_spec (db : Store) (sid : Nat) (d : PyDate)
    (h : latestPersistedDate db sid = some d) :
    (∃ p ∈ db.daily_prices, p.stock_id = sid ∧ p.date = d) ∧
      ∀ p ∈ db.daily_prices, p.stock_id = sid → p.date ≤ d := by
  unfold latestPersistedDate at h
  constructor
  · have hmem := List.max?_mem (fun a b => max_choice a b) h
    rcases List.mem_map.mp hmem with ⟨p, hp, hpd⟩
    rcases List.mem_filter.mp hp with ⟨hmem', hsid⟩
    exact ⟨p, hmem', by simpa using hsid, hpd⟩
  · intro p hp hsid
    have hub := (List.max?_le_iff (fun a b c => max_le_iff) h
      (x := d)).mp le_rfl
    exact hub p.date (List.mem_map.mpr
      ⟨p, List.mem_filter.mpr ⟨hp, by simp [hsid]⟩, rfl⟩)

theorem le_latestPersistedDate (db : Store) (sid : Nat)
    (p : DailyStockPrice) (hp : p ∈ db.daily_prices)
    (hsid : p.stock_id = sid) :
    ∃ d, latestPersistedDate db sid = some d ∧ p.date ≤ d := by
  cases h : latestPersistedDate db sid with
  | none =>
    exact absurd hsid ((latestPersistedDate_eq_none_iff db sid).mp h p hp)
  | some d =>
    exact ⟨d, rfl, (latestPersistedDate_spec db sid d h).2 p hp hsid⟩

theorem mergePrices_filter_pred (db : Store) (sid : Nat) (r : HistRow) :
    (match latestPrice db sid with
      | some lp => decide (lp.date < r.date)
      | none => true) = isNewFor db sid r := by
  unfold isNewFor
  have h := latestPrice_date_eq db sid
  cases hl : latestPrice db sid with
  | none => rw [hl] at h; simp only [Option.map_none'] at h; rw [← h]
  | some lp => rw [hl] at h; simp only [Option.map_some'] at h; rw [← h]

/-- The defining equation of the price merge: the store gains exactly the
fetched rows dated strictly after the latest persisted date (all rows when
there is no persisted price), appended as price rows of the stock, and the
reported count is the size of that sublist. -/
theorem mergePrices_eq (db : Store) (sid : Nat) (hist : List HistRow) :
    mergePrices db sid hist =
      ({ db with daily_prices := db.daily_prices ++
          (hist.filter (isNewFor db sid)).map (priceRowOf sid) },
        (hist.filter (isNewFor db sid)).length) := by
  unfold mergePrices
  have hfc : (hist.filter (fun r =>
      match latestPrice db sid with
      | some lp => decide (lp.date < r.date)
      | none => true)) = hist.filter (isNewFor db sid) :=
    List.filter_congr (fun r _ => mergePrices_filter_pred db sid r)
  by_cases hemp : hist.isEmpty
  · rw [if_pos hemp]
    rw [List.isEmpty_iff] at hemp
    subst hemp
    simp
  · rw [if_neg hemp]
    simp only [hfc]
    by_cases hpe : ((hist.filter (isNewFor db sid)).map
        priceCreateOfRow).isEmpty
    · rw [if_pos hpe]
      rw [List.isEmpty_iff, List.map_eq_nil_iff] at hpe
      rw [hpe]
      simp
    · rw [if_neg hpe]
      unfold addDailyPrices
      rw [List.map_map, List.length_map]
      rfl

theorem isNewFor_after_merge (db : Store) (sid : Nat) (hist : List HistRow)
    (r : HistRow) (hr : r ∈ hist) :
    isNewFor (mergePrices db sid hist).1 sid r = false := by
  set db1 := (mergePrices db sid hist).1 with hdb1
  have hprices : db1.daily_prices = db.daily_prices ++
      (hist.filter (isNewFor db sid)).map (priceRowOf sid) := by
    rw [hdb1, mergePrices_eq]
  have hub : ∃ d, latestPersistedDate db1 sid = some d ∧ r.date ≤ d := by
    cases hnew : isNewFor db sid r with
    | true =>
      have hmem : priceRowOf sid r ∈ db1.daily_prices := by
        rw [hprices]
        exact List.mem_append_right _ (List.mem_map.mpr
          ⟨r, List.mem_filter.mpr ⟨hr, hnew⟩, rfl⟩)
      exact le_latestPersistedDate db1 sid (priceRowOf sid r) hmem rfl
    | false =>
      unfold isNewFor at hnew
      cases hld : latestPersistedDate db sid with
      | none => rw [hld] at hnew; exact absurd hnew (by simp)
      | some d =>
        rw [hld] at hnew
        have hrd : r.date ≤ d := by simpa using hnew
        rcases (latestPersistedDate_spec db sid d hld).1 with
          ⟨p, hp, hpsid, hpd⟩
        have hmem : p ∈ db1.daily_prices := by
          rw [hprices]; exact List.mem_append_left _ hp
        rcases le_latestPersistedDate db1 sid p hmem hpsid with
          ⟨d', hld', hle⟩
        exact ⟨d', hld', le_trans hrd (hpd ▸ hle)⟩
  rcases hub with ⟨d, hld, hle⟩
  unfold isNewFor
  rw [hld]
  simpa using not_lt.mpr hle

/-- The defining equation of the per-row statement loop body, stated with
the `if` at the top for case reasoning. -/
theorem saveFinRow_eq (sid : Nat) (pt : String) (acc : Store) (r : FinRow) :
    saveFinRow sid pt acc r =
      if (getFinancialStatements acc sid (some pt)
          (some r.period_end_date)).isEmpty = false
      then acc
      else { acc with financial_statements := acc.financial_statements ++
        [FinancialStatement.ofCreate sid (statementCreateOfRow pt r)] } := rfl

theorem getFinancialStatements_key_eq_nil_iff (db : Store) (sid : Nat)
    (pt : String) (d : PyDate) :
    getFinancialStatements db sid (some pt) (some d) = [] ↔
      ∀ s ∈ db.financial_statements,
        ¬(s.stock_id = sid ∧ s.period_type = pt ∧ s.period_end_date = d) := by
  unfold getFinancialStatements
  simp only [List.filter_filter, List.filter_eq_nil_iff, Bool.and_eq_true,
    beq_iff_eq]
  constructor
  · intro h s hs hk
    exact h s hs (by tauto)
  · intro h s hs hk
    exact h s hs (by tauto)

theorem saveFinRow_skip (acc : Store) (sid : Nat) (pt : String) (r : FinRow)
    (h : ∃ s ∈ acc.financial_statements,
      s.stock_id = sid ∧ s.period_type = pt ∧
        s.period_end_date = r.period_end_date) :
    saveFinRow sid pt acc r = acc := by
  have hne : (getFinancialStatements acc sid (some pt)
      (some r.period_end_date)).isEmpty = false := by
    cases hE : (getFinancialStatements acc sid (some pt)
        (some r.period_end_date)).isEmpty with
    | false => rfl
    | true =>
      exfalso
      rw [List.isEmpty_iff] at hE
      rcases h with ⟨s, hs, hkey⟩
      exact (getFinancialStatements_key_eq_nil_iff acc sid pt
        r.period_end_date).mp hE s hs hkey
  rw [saveFinRow_eq, if_pos hne]

theorem saveFinRow_insert (acc : Store) (sid : Nat) (pt : String)
    (r : FinRow)
    (h : ∀ s ∈ acc.financial_statements,
      ¬(s.stock_id = sid ∧ s.period_type = pt ∧
        s.period_end_date = r.period_end_date)) :
    saveFinRow sid pt acc r =
      { acc with financial_statements := acc.financial_statements ++
        [FinancialStatement.ofCreate sid (statementCreateOfRow pt r)] } := by
  have hnil : getFinancialStatements acc sid (some pt)
      (some r.period_end_date) = [] :=
    (getFinancialStatements_key_eq_nil_iff acc sid pt r.period_end_date).mpr h
  rw [saveFinRow_eq, if_neg (by simp [hnil])]

theorem saveFinRow_frame (acc : Store) (sid : Nat) (pt : String)
    (r : FinRow) :
    (saveFinRow sid pt acc r).stocks = acc.stocks ∧
      (saveFinRow sid pt acc r).daily_prices = acc.daily_prices ∧
      (saveFinRow sid pt acc r).next_id = acc.next_id := by
  rw [saveFinRow_eq]
  by_cases h : (getFinancialStatements acc sid (some pt)
      (some r.period_end_date)).isEmpty = false
  · rw [if_pos h]
    exact ⟨rfl, rfl, rfl⟩
  · rw [if_neg h]
    exact ⟨rfl, rfl, rfl⟩

theorem saveFinancialsFromDf_frame (db : Store) (sid : Nat)
    (rows : List FinRow) (pt : String) :
    (saveFinancialsFromDf db sid rows pt).stocks = db.stocks ∧
      (saveFinancialsFromDf db sid rows pt).daily_prices = db.daily_prices ∧
      (saveFinancialsFromDf db sid rows pt).next_id = db.next_id := by
  unfold saveFinancialsFromDf
  by_cases hemp : rows.isEmpty
  · rw [if_pos hemp]; exact ⟨rfl, rfl, rfl⟩
  · rw [if_neg hemp]
    clear hemp
    induction rows generalizing db with
    | nil => exact ⟨rfl, rfl, rfl⟩
    | cons r rows ih =>
      rw [List.foldl_cons]
      rcases ih (saveFinRow sid pt db r) with ⟨h1, h2, h3⟩
      rcases saveFinRow_frame db sid pt r with ⟨g1, g2, g3⟩
      exact ⟨h1.trans g1, h2.trans g2, h3.trans g3⟩

theorem saveFinRow_preserves_unique (acc : Store) (sid : Nat) (pt : String)
    (r : FinRow) (h : statementsKeyUnique acc) :
    statementsKeyUnique (saveFinRow sid pt acc r) := by
  by_cases hex : ∃ s ∈ acc.financial_statements,
      s.stock_id = sid ∧ s.period_type = pt ∧
        s.period_end_date = r.period_end_date
  · rw [saveFinRow_skip acc sid pt r hex]; exact h
  · push_neg at hex
    rw [saveFinRow_insert acc sid pt r (by
      intro s hs hkey
      exact absurd hkey.2.2 (hex s hs hkey.1 hkey.2.1))]
    unfold statementsKeyUnique at h ⊢
    rw [List.pairwise_append]
    refine ⟨h, by simp, ?_⟩
    intro a ha b hb
    simp only [List.mem_singleton] at hb
    subst hb
    rintro ⟨h1, h2, h3⟩
    exact hex a ha h1 h2 h3

theorem saveFinancialsFromDf_preserves_unique (db : Store) (sid : Nat)
    (rows : List FinRow) (pt : String) (h : statementsKeyUnique db) :
    statementsKeyUnique (saveFinancialsFromDf db sid rows pt) := by
  unfold saveFinancialsFromDf
  by_cases hemp : rows.isEmpty
  · rw [if_pos hemp]; exact h
  · rw [if_neg hemp]
    clear hemp
    induction rows generalizing db with
    | nil => exact h
    | cons r rows ih =>
      rw [List.foldl_cons]
      exact ih _ (saveFinRow_preserves_unique db sid pt r h)

theorem upsertStock_frame (db : Store) (sym : String) (i : InfoDict) :
    (upsertStock db sym i).1.daily_prices = db.daily_prices ∧
      (upsertStock db sym i).1.financial_statements =
        db.financial_statements := by
  unfold upsertStock
  cases getStockByCode db sym with
  | some stock => exact ⟨rfl, rfl⟩
  | none => exact ⟨rfl, rfl⟩

theorem mergePrices_preserves_unique (db : Store) (sid : Nat)
    (hist : List HistRow)
    (hdup : hist.Pairwise (fun a b => a.date ≠ b.date))
    (h : pricesKeyUnique db) :
    pricesKeyUnique (mergePrices db sid hist).1 := by
  rw [mergePrices_eq]
  unfold pricesKeyUnique at h ⊢
  rw [List.pairwise_append]
  refine ⟨h, ?_, ?_⟩
  · rw [List.pairwise_map]
    exact (hdup.filter (isNewFor db sid)).imp (by
      intro a b hne
      rintro ⟨_, hdate⟩
      exact hne hdate)
  · intro p hp q hq
    rcases List.mem_map.mp hq with ⟨r, hr, hqr⟩
    rcases List.mem_filter.mp hr with ⟨_, hnew⟩
    rintro ⟨hpsid, hpdate⟩
    have hq_sid : q.stock_id = sid := by rw [← hqr]; rfl
    have hq_date : q.date = r.date := by rw [← hqr]; rfl
    rcases le_latestPersistedDate db sid p hp (hq_sid ▸ hpsid) with
      ⟨d, hld, hle⟩
    unfold isNewFor at hnew
    rw [hld] at hnew
    have hlt : d < r.date := by simpa using hnew
    have hge : r.date ≤ d := by rw [← hq_date, ← hpdate]; exact hle
    exact absurd hlt (not_lt.mpr hge)

theorem find?_code_map_update (l : List Stock) (sym : String)
    (stock s' : Stock) (hfind : l.find? (fun s => s.code == sym) = some stock)
    (hid : s'.id = stock.id) (hcode : s'.code = sym) :
    (l.map (fun t => if t.id == s'.id then s' else t)).find?
      (fun s => s.code == sym) = some s' := by
  induction l with
  | nil => simp at hfind
  | cons t l ih =>
    rw [List.map_cons, List.find?_cons]
    by_cases ht : t.code == sym
    · rw [List.find?_cons, ht] at hfind
      simp only at hfind
      have htstock : t = stock := by injection hfind
      have : (if t.id == s'.id then s' else t) = s' := by
        rw [if_pos (by rw [htstock, hid]; exact beq_self_eq_true _)]
      rw [this]
      simp [hcode]
    · rw [List.find?_cons] at hfind
      simp only [Bool.not_eq_true] at ht
      rw [ht] at hfind
      simp only at hfind
      by_cases hidt : t.id == s'.id
      · rw [if_pos hidt]
        simp [hcode]
      · rw [if_neg hidt, ht]
        simp only
        exact ih hfind

theorem find?_code_append_new (l : List Stock) (sym : String) (s : Stock)
    (hnone : l.find? (fun t => t.code == sym) = none) (hcode : s.code = sym) :
    (l ++ [s]).find? (fun t => t.code == sym) = some s := by
  rw [List.find?_append, hnone]
  simp [hcode]

theorem getStockByCode_upsert (db : Store) (sym : String) (i : InfoDict) :
    getStockByCode (upsertStock db sym i).1 sym = some (upsertStock db sym i).2 := by
  unfold upsertStock
  cases hfind : getStockByCode db sym with
  | some stock =>
    simp only
    unfold getStockByCode at hfind
    unfold getStockByCode updateStock
    exact find?_code_map_update db.stocks sym stock _ hfind rfl rfl
  | none =>
    simp only
    unfold getStockByCode at hfind
    unfold getStockByCode createStock
    exact find?_code_append_new db.stocks sym _ hfind rfl

/-- Equation: the early NotFound return when `ticker.info` is empty. -/
theorem fetchAndSave_eq_noinfo (db : Store) (sym : String) (t : Ticker)
    (h : t.info = none) : fetchAndSaveYfinanceData db sym t = (db, none) := by
  unfold fetchAndSaveYfinanceData
  rw [h]

/-- Equation: the early NotFound return when `ticker.info` lacks the
"symbol" key. -/
theorem fetchAndSave_eq_nosymbol (db : Store) (sym : String) (t : Ticker)
    (i : InfoDict) (h : t.info = some i) (hsym : i.hasSymbol = false) :
    fetchAndSaveYfinanceData db sym t = (db, none) := by
  unfold fetchAndSaveYfinanceData
  simp only [h]
  rw [if_pos hsym]

/-- Equation: the successful path of single-symbol ingestion: metadata
upsert, then price merge, then the annual and quarterly statement
merges. -/
theorem fetchAndSave_eq_ok (db : Store) (sym : String) (t : Ticker)
    (i : InfoDict) (h : t.info = some i) (hsym : i.hasSymbol = true) :
    fetchAndSaveYfinanceData db sym t =
      (saveFinancialsFromDf
        (saveFinancialsFromDf
          (mergePrices (upsertStock db sym i).1 (upsertStock db sym i).2.id
            t.history).1
          (upsertStock db sym i).2.id t.financials "annual")
        (upsertStock db sym i).2.id t.quarterly_financials "quarterly",
       some (upsertStock db sym i).2) := by
  unfold fetchAndSaveYfinanceData
  simp only [h]
  rw [if_neg (by simp [hsym])]

theorem fetchAndSave_preserves_invariants (db : Store) (sym : String)
    (t : Ticker) (hp : pricesKeyUnique db) (hs : statementsKeyUnique db)
    (hdup : t.history.Pairwise (fun a b => a.date ≠ b.date)) :
    pricesKeyUnique (fetchAndSaveYfinanceData db sym t).1 ∧
      statementsKeyUnique (fetchAndSaveYfinanceData db sym t).1 := by
  cases hinfo : t.info with
  | none =>
    rw [fetchAndSave_eq_noinfo db sym t hinfo]
    exact ⟨hp, hs⟩
  | some info =>
    cases hsym : info.hasSymbol with
    | false =>
      rw [fetchAndSave_eq_nosymbol db sym t info hinfo hsym]
      exact ⟨hp, hs⟩
    | true =>
      rw [fetchAndSave_eq_ok db sym t info hinfo hsym]
      rcases upsertStock_frame db sym info with ⟨hu1, hu2⟩
      have hp1 : pricesKeyUnique (upsertStock db sym info).1 := by
        unfold pricesKeyUnique at hp ⊢
        rw [hu1]; exact hp
      have hs1 : statementsKeyUnique (upsertStock db sym info).1 := by
        unfold statementsKeyUnique at hs ⊢
        rw [hu2]; exact hs
      have hp2 := mergePrices_preserves_unique (upsertStock db sym info).1
        (upsertStock db sym info).2.id t.history hdup hp1
      have hs2 : statementsKeyUnique
          (mergePrices (upsertStock db sym info).1
            (upsertStock db sym info).2.id t.history).1 := by
        unfold statementsKeyUnique at hs1 ⊢
        rw [mergePrices_eq]
        exact hs1
      have hs3 := saveFinancialsFromDf_preserves_unique _
        (upsertStock db sym info).2.id t.financials "annual" hs2
      have hp3 : pricesKeyUnique
          (saveFinancialsFromDf (mergePrices (upsertStock db sym info).1
            (upsertStock db sym info).2.id t.history).1
            (upsertStock db sym info).2.id t.financials "annual") := by
        unfold pricesKeyUnique at hp2 ⊢
        rw [(saveFinancialsFromDf_frame _ _ _ _).2.1]
        exact hp2
      have hs4 := saveFinancialsFromDf_preserves_unique _
        (upsertStock db sym info).2.id t.quarterly_financials "quarterly" hs3
      have hp4 : pricesKeyUnique
          (saveFinancialsFromDf
            (saveFinancialsFromDf (mergePrices (upsertStock db sym info).1
              (upsertStock db sym info).2.id t.history).1
              (upsertStock db sym info).2.id t.financials "annual")
            (upsertStock db sym info).2.id
            t.quarterly_financials "quarterly") := by
        unfold pricesKeyUnique at hp3 ⊢
        rw [(saveFinancialsFromDf_frame _ _ _ _).2.1]
        exact hp3
      exact ⟨hp4, hs4⟩

/-- Whether single-symbol ingestion yields a stock for the given provider
response: exactly when `ticker.info` is usable. Store-independent. -/
def ingestOk (t : Ticker) : Bool :=
  match t.info with
  | none => false
  | some i => i.hasSymbol

theorem fetchAndSave_isSome (db : Store) (sym : String) (t : Ticker) :
    (fetchAndSaveYfinanceData db sym t).2.isSome = ingestOk t := by
  unfold ingestOk
  cases hinfo : t.info with
  | none => rw [fetchAndSave_eq_noinfo db sym t hinfo]; rfl
  | some i =>
    cases hsym : i.hasSymbol with
    | false => rw [fetchAndSave_eq_nosymbol db sym t i hinfo hsym]; simp [hsym]
    | true => rw [fetchAndSave_eq_ok db sym t i hinfo hsym]; simp [hsym]

/-- The per-symbol success predicate of the bulk job, on the provider's
outcome for that symbol: an exception and a NotFound outcome are failures;
a returned stock is a success. -/
def bulkOutcomeOk (o : FetchOutcome) : Bool :=
  match o with
  | .error => false
  | .ok t => ingestOk t

theorem bulkStep_counts (provider : String → FetchOutcome)
    (acc : Store × Nat × Nat) (sym : String) :
    (bulkStep provider acc sym).2.1 =
        acc.2.1 + (if bulkOutcomeOk (provider sym) then 1 else 0) ∧
      (bulkStep provider acc sym).2.2 =
        acc.2.2 + (if bulkOutcomeOk (provider sym) then 0 else 1) := by
  unfold bulkStep bulkOutcomeOk
  cases hop : provider sym with
  | error => simp
  | ok t =>
    simp only
    have hsome := fetchAndSave_isSome acc.1 sym t
    cases hres : (fetchAndSaveYfinanceData acc.1 sym t).2 with
    | some st =>
      rw [hres] at hsome
      simp only [Option.isSome_some] at hsome
      simp [← hsome]
    | none =>
      rw [hres] at hsome
      simp only [Option.isSome_none] at hsome
      simp [← hsome]

theorem foldl_bulkStep_counts (provider : String → FetchOutcome)
    (symbols : List String) (acc : Store × Nat × Nat) :
    (symbols.foldl (bulkStep provider) acc).2.1 =
        acc.2.1 + symbols.countP (fun sym => bulkOutcomeOk (provider sym)) ∧
      (symbols.foldl (bulkStep provider) acc).2.2 =
        acc.2.2 + (symbols.length -
          symbols.countP (fun sym => bulkOutcomeOk (provider sym))) := by
  induction symbols generalizing acc with
  | nil => simp
  | cons sym symbols ih =>
    rw [List.foldl_cons]
    rcases ih (bulkStep provider acc sym) with ⟨ih1, ih2⟩
    rcases bulkStep_counts provider acc sym with ⟨h1, h2⟩
    constructor
    · rw [ih1, h1, List.countP_cons]
      by_cases hok : bulkOutcomeOk (provider sym)
      · simp only [hok, if_pos]
        omega
      · simp only [hok]
        simp
    · rw [ih2, h2, List.countP_cons, List.length_cons]
      have hle := List.countP_le_length
        (fun sym => bulkOutcomeOk (provider sym)) (l := symbols)
      by_cases hok : bulkOutcomeOk (provider sym)
      · simp only [hok, if_pos]
        omega
      · simp only [hok]
        simp only [Bool.false_eq_true, if_false]
        omega

theorem ratTrunc_intCast (n : ℤ) : ratTrunc ((n : ℚ)) = n := by
  unfold ratTrunc
  split
  · exact Int.floor_intCast n
  · exact Int.ceil_intCast n

/-- An already-sanitized integer as Python re-presents it to
`_clean_financial_value`: a finite numeric value. -/
def extOfInt (n : Int) : ExtFloat := ExtFloat.finite ((n : ℚ))

/-- The metadata fields of a stored stock, projected for comparison with an
upsert payload. -/
def metaOf (s : Stock) : StockCreate :=
  { code := s.code, name := s.name, industry := s.industry,
    sector := s.sector, country := s.country, exchange := s.exchange,
    currency := s.currency, market_cap := s.market_cap,
    website := s.website }

/-- Fixture mirroring the repository's test mock metadata
(src/tests/test_main.py). -/
def infoW : InfoDict :=
  { hasSymbol := true, longName := some "Test Inc", shortName := none,
    industry := some "Technology", sector := some "Software",
    country := some "USA", exchange := some "NASDAQ",
    currency := some "USD",
    marketCap := some (ExtFloat.finite 1000000000),
    website := some "https://example.com" }

/-- Fixture: one fetched history row (close 101.0 on day 100). -/
def histRowW : HistRow :=
  { date := 100, «open» := some (ExtFloat.finite 100),
    high := some (ExtFloat.finite 102), low := some (ExtFloat.finite 99),
    close := some (ExtFloat.finite 101),
    adj_close := some (ExtFloat.finite 101),
    volume := some (ExtFloat.finite 100000),
    dividends := some (ExtFloat.finite 0),
    stock_splits := some (ExtFloat.finite 0) }

/-- Fixture: one fetched annual statement row. -/
def finRowW : FinRow :=
  { period_end_date := 200, total_revenue := some (ExtFloat.finite 10000),
    cost_of_revenue := some (ExtFloat.finite 4000),
    gross_profit := some (ExtFloat.finite 6000),
    operating_income := some (ExtFloat.finite 3000),
    net_income := some (ExtFloat.finite 2000),
    total_assets := some (ExtFloat.finite 30000),
    total_liabilities := some (ExtFloat.finite 15000),
    shareholder_equity := some (ExtFloat.finite 15000),
    free_cash_flow := some (ExtFloat.finite 1000) }

/-- Fixture: a full provider response for a known symbol. -/
def tickerW : Ticker :=
  { info := some infoW, history := [histRowW], financials := [finRowW],
    quarterly_financials := [{ finRowW with period_end_date := 230 }] }

/-- Fixture: a provider response for an unknown symbol (empty info). -/
def tickerNone : Ticker :=
  { info := none, history := [], financials := [],
    quarterly_financials := [] }

/-- Fixture: the manual-registration payload of the repository's test
`test_create_and_get_financial_statement`. -/
def stockCreateW : StockCreate :=
  { code := "FIN", name := "Financial Corp", industry := none,
    sector := none, country := none, exchange := none, currency := none,
    market_cap := none, website := none }

/-- Fixture: the manual statement payload of that test (annual,
period end day 200). -/
def stmtCreateW : FinancialStatementCreate :=
  { period_type := "annual", period_end_date := 200,
    total_revenue := some 500, cost_of_revenue := none,
    gross_profit := none, operating_income := none,
    net_income := some 50, total_assets := none, total_liabilities := none,
    shareholder_equity := none, free_cash_flow := none }

/-- C7: for every input in the sanitizer's domain (a numeric value that may
be null, NaN or infinite), `_clean_financial_value` returns the value
truncated toward zero to an integer when it is finite, and the absent
marker (`None`) when it is null, NaN, or infinite. -/
theorem C7_sanitizer_contract (v : Option ExtFloat) :
    (∀ q : ℚ, v = some (ExtFloat.finite q) →
      cleanFinancialValue v = some (ratTrunc q)) ∧
    ((v = none ∨ v = some ExtFloat.nan ∨ v = some ExtFloat.posInf ∨
        v = some ExtFloat.negInf) → cleanFinancialValue v = none) := by
  constructor
  · rintro q rfl
    rfl
  · rintro (rfl | rfl | rfl | rfl) <;> rfl

/-- Witness for C7: the contract evaluated at 7/2 (truncating to 3) and at
NaN (absent marker). -/
theorem C7_sanitizer_contract_witness :
    cleanFinancialValue (some (ExtFloat.finite (7 / 2))) = some 3 ∧
      cleanFinancialValue (some ExtFloat.nan) = none := by
  constructor
  · rw [(C7_sanitizer_contract (some (ExtFloat.finite (7 / 2)))).1
      (7 / 2) rfl]
    have hfloor : (⌊(7 / 2 : ℚ)⌋ : ℤ) = 3 := by
      rw [Int.floor_eq_iff]
      norm_num
    unfold ratTrunc
    rw [if_pos (by norm_num), hfloor]
  · exact (C7_sanitizer_contract (some ExtFloat.nan)).2
      (Or.inr (Or.inl rfl))

/-- C9: the sanitizer is idempotent — re-sanitizing an already-sanitized
value (an integer re-presented as a finite numeric value) gives the same
result. -/
theorem C9_sanitizer_idempotent (v : Option ExtFloat) :
    cleanFinancialValue ((cleanFinancialValue v).map extOfInt) =
      cleanFinancialValue v := by
  match v with
  | none => rfl
  | some ExtFloat.nan => rfl
  | some ExtFloat.posInf => rfl
  | some ExtFloat.negInf => rfl
  | some (ExtFloat.finite q) =>
    show cleanFinancialValue (some (extOfInt (ratTrunc q))) =
      some (ratTrunc q)
    unfold cleanFinancialValue extOfInt mathIsFinite pyInt
    simp [ratTrunc_intCast]

/-- C1: for every security and fetched series, the price merge writes
exactly the fetched entries dated strictly after the security's latest
persisted price date (all entries when there is no persisted price), the
reported count equals exactly that subset's size, and nothing else in the
store changes. An entry dated exactly on the latest persisted date is
excluded by the exactness of the second conjunct, whatever its field
values. -/
theorem C1_price_merge_exact (db : Store) (sid : Nat)
    (hist : List HistRow) :
    (mergePrices db sid hist).2 =
        (hist.filter (isNewFor db sid)).length ∧
      (mergePrices db sid hist).1.daily_prices =
        db.daily_prices ++
          (hist.filter (isNewFor db sid)).map (priceRowOf sid) ∧
      (mergePrices db sid hist).1.stocks = db.stocks ∧
      (mergePrices db sid hist).1.financial_statements =
        db.financial_statements := by
  rw [mergePrices_eq]
  exact ⟨rfl, rfl, rfl, rfl⟩

/-- C8: the price merge is idempotent — after one merge of a series, a
second merge of the same series against the same security writes zero
records and leaves the store unchanged. -/
theorem C8_price_merge_idempotent (db : Store) (sid : Nat)
    (hist : List HistRow) :
    mergePrices (mergePrices db sid hist).1 sid hist =
      ((mergePrices db sid hist).1, 0) := by
  rw [mergePrices_eq ((mergePrices db sid hist).1)]
  have hfil : hist.filter (isNewFor (mergePrices db sid hist).1 sid) = [] :=
    List.filter_eq_nil_iff.mpr (fun r hr => by
      rw [isNewFor_after_merge db sid hist r hr]
      simp)
  rw [hfil]
  simp

/-- C3: for every fetched statement row, if a statement already exists for
the same (security, period type, period end date) key the merge step skips
the row and leaves the store unchanged (first-write-wins); otherwise it
inserts exactly one new statement row whose numeric fields are the
sanitized values of the corresponding fetched fields. The key condition
requires the period types to match, so an annual and a quarterly statement
with the same end date do not block each other. -/
theorem C3_statement_merge_row (db : Store) (sid : Nat) (pt : String)
    (r : FinRow) :
    ((∃ s ∈ db.financial_statements, s.stock_id = sid ∧
        s.period_type = pt ∧ s.period_end_date = r.period_end_date) →
      saveFinRow sid pt db r = db) ∧
    ((∀ s ∈ db.financial_statements, ¬(s.stock_id = sid ∧
        s.period_type = pt ∧ s.period_end_date = r.period_end_date)) →
      (saveFinRow sid pt db r).financial_statements =
        db.financial_statements ++
          [{ stock_id := sid, period_type := pt,
             period_end_date := r.period_end_date,
             total_revenue := cleanFinancialValue r.total_revenue,
             cost_of_revenue := cleanFinancialValue r.cost_of_revenue,
             gross_profit := cleanFinancialValue r.gross_profit,
             operating_income := cleanFinancialValue r.operating_income,
             net_income := cleanFinancialValue r.net_income,
             total_assets := cleanFinancialValue r.total_assets,
             total_liabilities := cleanFinancialValue r.total_liabilities,
             shareholder_equity := cleanFinancialValue r.shareholder_equity,
             free_cash_flow := cleanFinancialValue r.free_cash_flow }] ∧
      (saveFinRow sid pt db r).stocks = db.stocks ∧
      (saveFinRow sid pt db r).daily_prices = db.daily_prices) := by
  constructor
  · exact saveFinRow_skip db sid pt r
  · intro h
    rw [saveFinRow_insert db sid pt r h]
    exact ⟨rfl, rfl, rfl⟩

/-- Witness for C3: in a store holding one annual statement for stock 1 on
day 200, re-merging an annual row with that key is a no-op, while merging a
quarterly row with the same end date inserts (period types are
de-duplicated independently). -/
theorem C3_statement_merge_row_witness :
    saveFinRow 1 "annual"
        (createFinancialStatement emptyStore 1 stmtCreateW).1 finRowW =
      (createFinancialStatement emptyStore 1 stmtCreateW).1 ∧
    (saveFinRow 1 "quarterly"
        (createFinancialStatement emptyStore 1 stmtCreateW).1
        finRowW).financial_statements =
      (createFinancialStatement emptyStore 1
          stmtCreateW).1.financial_statements ++
        [{ stock_id := 1, period_type := "quarterly",
           period_end_date := finRowW.period_end_date,
           total_revenue := cleanFinancialValue finRowW.total_revenue,
           cost_of_revenue := cleanFinancialValue finRowW.cost_of_revenue,
           gross_profit := cleanFinancialValue finRowW.gross_profit,
           operating_income := cleanFinancialValue finRowW.operating_income,
           net_income := cleanFinancialValue finRowW.net_income,
           total_assets := cleanFinancialValue finRowW.total_assets,
           total_liabilities := cleanFinancialValue finRowW.total_liabilities,
           shareholder_equity :=
             cleanFinancialValue finRowW.shareholder_equity,
           free_cash_flow := cleanFinancialValue finRowW.free_cash_flow }] :=
  ⟨(C3_statement_merge_row
      (createFinancialStatement emptyStore 1 stmtCreateW).1 1 "annual"
      finRowW).1
      ⟨FinancialStatement.ofCreate 1 stmtCreateW, by decide, by decide⟩,
   ((C3_statement_merge_row
      (createFinancialStatement emptyStore 1 stmtCreateW).1 1 "quarterly"
      finRowW).2 (by decide)).1⟩

/-- C4: the security upsert is last-write-wins. The returned stock's
metadata equals exactly the supplied `stock_data_dict` (every field
overwritten, no stale field), and looking the code up afterwards yields
that stock. If a stock with the code existed, the update keeps its
identity and replaces the stored row; if none existed, a new row is
appended whose price and statement histories are empty (the `next_id`
hypotheses say the fresh id references no existing price or statement
row, as database foreign keys guarantee). -/
theorem C4_upsert_last_write_wins (db : Store) (sym : String) (i : InfoDict)
    (hp : ∀ p ∈ db.daily_prices, p.stock_id ≠ db.next_id)
    (hs : ∀ s ∈ db.financial_statements, s.stock_id ≠ db.next_id) :
    metaOf (upsertStock db sym i).2 = stockDataDict sym i ∧
    getStockByCode (upsertStock db sym i).1 sym =
      some (upsertStock db sym i).2 ∧
    (∀ stock, getStockByCode db sym = some stock →
      (upsertStock db sym i).2.id = stock.id ∧
      (upsertStock db sym i).1.stocks = db.stocks.map
        (fun t => if t.id == stock.id then (upsertStock db sym i).2
          else t)) ∧
    (getStockByCode db sym = none →
      (upsertStock db sym i).1.stocks =
        db.stocks ++ [(upsertStock db sym i).2] ∧
      getDailyPrices (upsertStock db sym i).1
        (upsertStock db sym i).2.id none none = [] ∧
      getFinancialStatements (upsertStock db sym i).1
        (upsertStock db sym i).2.id none none = []) := by
  refine ⟨?_, getStockByCode_upsert db sym i, ?_, ?_⟩
  · cases hfind : getStockByCode db sym with
    | some stock => simp only [upsertStock, hfind]; rfl
    | none => simp only [upsertStock, hfind]; rfl
  · intro stock hfind
    simp only [upsertStock, hfind]
    exact ⟨trivial, rfl⟩
  · intro hfind
    simp only [upsertStock, hfind]
    refine ⟨rfl, ?_, ?_⟩
    · unfold getDailyPrices createStock
      simp only
      exact List.filter_eq_nil_iff.mpr (fun p hpm => by
        simpa using hp p hpm)
    · unfold getFinancialStatements createStock
      simp only
      exact List.filter_eq_nil_iff.mpr (fun st hsm => by
        simpa using hs st hsm)

/-- Witness for C4: upserting "FIN" into a store already holding a
manually created "FIN" stock overwrites every metadata field with the
mock-provider values and returns the updated record. -/
theorem C4_upsert_last_write_wins_witness :
    metaOf (upsertStock (createStock emptyStore stockCreateW).1
        "FIN" infoW).2 = stockDataDict "FIN" infoW ∧
    getStockByCode (upsertStock (createStock emptyStore stockCreateW).1
        "FIN" infoW).1 "FIN" =
      some (upsertStock (createStock emptyStore stockCreateW).1
        "FIN" infoW).2 :=
  ⟨(C4_upsert_last_write_wins (createStock emptyStore stockCreateW).1
      "FIN" infoW (by decide) (by decide)).1,
   (C4_upsert_last_write_wins (createStock emptyStore stockCreateW).1
      "FIN" infoW (by decide) (by decide)).2.1⟩

/-- C5: the bulk job iterates all symbols (no per-symbol failure aborts the
fold), and its reported counters satisfy success + failure = number of
symbols, with success counting exactly the symbols whose single-symbol
ingestion returns a stock (an exception or a NotFound outcome counts as a
failure). -/
theorem C5_bulk_counts (db : Store) (provider : String → FetchOutcome)
    (symbols : List String) :
    (runBulkFetchJob db provider symbols).2.1 +
        (runBulkFetchJob db provider symbols).2.2 = symbols.length ∧
      (runBulkFetchJob db provider symbols).2.1 =
        symbols.countP (fun sym =>
          match provider sym with
          | FetchOutcome.error => false
          | FetchOutcome.ok t =>
              (fetchAndSaveYfinanceData db sym t).2.isSome) := by
  unfold runBulkFetchJob
  rcases foldl_bulkStep_counts provider symbols (db, 0, 0) with ⟨h1, h2⟩
  simp only [Nat.zero_add] at h1 h2
  have hcp : symbols.countP (fun sym =>
      match provider sym with
      | FetchOutcome.error => false
      | FetchOutcome.ok t =>
          (fetchAndSaveYfinanceData db sym t).2.isSome) =
      symbols.countP (fun sym => bulkOutcomeOk (provider sym)) := by
    refine List.countP_congr (fun sym _ => ?_)
    cases hop : provider sym with
    | error => simp [bulkOutcomeOk]
    | ok t => simp [bulkOutcomeOk, fetchAndSave_isSome db sym t]
  constructor
  · rw [h1, h2]
    have hle := List.countP_le_length
      (fun sym => bulkOutcomeOk (provider sym)) (l := symbols)
    omega
  · rw [h1, hcp]

/-- C6: when the provider reports the symbol as unknown (empty info or no
"symbol" key), single-symbol ingestion returns the NotFound outcome and
performs no writes: the store is exactly what it was. -/
theorem C6_notfound_no_writes (db : Store) (sym : String) (t : Ticker)
    (h : t.info = none ∨ ∃ i, t.info = some i ∧ i.hasSymbol = false) :
    (fetchAndSaveYfinanceData db sym t).2 = none ∧
      (fetchAndSaveYfinanceData db sym t).1 = db := by
  rcases h with h | ⟨i, hi, hsym⟩
  · rw [fetchAndSave_eq_noinfo db sym t h]
    exact ⟨rfl, rfl⟩
  · rw [fetchAndSave_eq_nosymbol db sym t i hi hsym]
    exact ⟨rfl, rfl⟩

/-- Witness for C6: ingesting an unknown symbol against the empty store
yields NotFound and leaves the store untouched. -/
theorem C6_notfound_no_writes_witness :
    (fetchAndSaveYfinanceData emptyStore "NOPE" tickerNone).2 = none ∧
      (fetchAndSaveYfinanceData emptyStore "NOPE" tickerNone).1 =
        emptyStore :=
  C6_notfound_no_writes emptyStore "NOPE" tickerNone (Or.inl rfl)

/-- C10: the metadata-upsert step touches only the stocks table — the
persisted price rows and statement rows are exactly unchanged by it. -/
theorem C10_upsert_touches_only_metadata (db : Store) (sym : String)
    (i : InfoDict) :
    (upsertStock db sym i).1.daily_prices = db.daily_prices ∧
      (upsertStock db sym i).1.financial_statements =
        db.financial_statements :=
  upsertStock_frame db sym i

theorem runBulk_preserves_invariants (db : Store)
    (provider : String → FetchOutcome) (symbols : List String)
    (hp : pricesKeyUnique db) (hs : statementsKeyUnique db)
    (hdup : ∀ sym t, provider sym = FetchOutcome.ok t →
      t.history.Pairwise (fun a b => a.date ≠ b.date)) :
    pricesKeyUnique (runBulkFetchJob db provider symbols).1 ∧
      statementsKeyUnique (runBulkFetchJob db provider symbols).1 := by
  unfold runBulkFetchJob
  suffices h : ∀ acc : Store × Nat × Nat, pricesKeyUnique acc.1 →
      statementsKeyUnique acc.1 →
      pricesKeyUnique (symbols.foldl (bulkStep provider) acc).1 ∧
        statementsKeyUnique (symbols.foldl (bulkStep provider) acc).1 from
    h (db, 0, 0) hp hs
  induction symbols with
  | nil => exact fun acc h1 h2 => ⟨h1, h2⟩
  | cons sym symbols ih =>
    intro acc h1 h2
    rw [List.foldl_cons]
    refine ih (bulkStep provider acc sym) ?_ ?_ <;>
      (unfold bulkStep
       cases hop : provider sym with
       | error => simpa using (by assumption)
       | ok t => ?_)
    · rcases fetchAndSave_preserves_invariants acc.1 sym t h1 h2
        (hdup sym t hop) with ⟨hpp, _⟩
      simp only
      cases (fetchAndSaveYfinanceData acc.1 sym t).2 with
      | some st => exact hpp
      | none => exact hpp
    · rcases fetchAndSave_preserves_invariants acc.1 sym t h1 h2
        (hdup sym t hop) with ⟨_, hss⟩
      simp only
      cases (fetchAndSaveYfinanceData acc.1 sym t).2 with
      | some st => exact hss
      | none => exact hss

/-- Counterexample to C2 as stated: not every operation preserves the
key-uniqueness invariants. The manual statement-creation operation behind
`POST /stocks/{code}/financials/` (src/app/routers/stocks.py:162-180)
checks only that the stock exists, and the table declares no unique
constraint, so calling it twice with the identical payload — against a
store reached from the empty database by a manual stock registration and
one prior identical call, where the invariant still holds — produces two
statement rows with the same (security, period type, period end date)
key. -/
theorem C2_counterexample :
    statementsKeyUnique (createFinancialStatement
      (createStock emptyStore stockCreateW).1 1 stmtCreateW).1 ∧
    ¬ statementsKeyUnique (createFinancialStatement
      (createFinancialStatement (createStock emptyStore stockCreateW).1
        1 stmtCreateW).1 1 stmtCreateW).1 := by
  decide

/-- C2 amended: the fetch-based ingestion operations — single-symbol
ingestion and the bulk job — preserve both key-uniqueness invariants,
provided each fetched price series carries pairwise-distinct dates (as a
calendar-indexed series does); the manual statement-creation operation is
excluded, since it performs no key check (see the counterexample). -/
theorem C2_fetch_ops_preserve_key_uniqueness (db : Store) (sym : String)
    (t : Ticker) (provider : String → FetchOutcome) (symbols : List String)
    (hp : pricesKeyUnique db) (hs : statementsKeyUnique db)
    (hdt : t.history.Pairwise (fun a b => a.date ≠ b.date))
    (hdp : ∀ s u, provider s = FetchOutcome.ok u →
      u.history.Pairwise (fun a b => a.date ≠ b.date)) :
    (pricesKeyUnique (fetchAndSaveYfinanceData db sym t).1 ∧
      statementsKeyUnique (fetchAndSaveYfinanceData db sym t).1) ∧
    (pricesKeyUnique (runBulkFetchJob db provider symbols).1 ∧
      statementsKeyUnique (runBulkFetchJob db provider symbols).1) :=
  ⟨fetchAndSave_preserves_invariants db sym t hp hs hdt,
   runBulk_preserves_invariants db provider symbols hp hs hdp⟩

/-- Witness for the amended C2: a full ingestion of the mock ticker and a
one-symbol bulk run against the empty store keep both invariants. -/
theorem C2_fetch_ops_preserve_key_uniqueness_witness :
    (pricesKeyUnique
        (fetchAndSaveYfinanceData emptyStore "TEST" tickerW).1 ∧
      statementsKeyUnique
        (fetchAndSaveYfinanceData emptyStore "TEST" tickerW).1) ∧
    (pricesKeyUnique (runBulkFetchJob emptyStore
        (fun _ => FetchOutcome.ok tickerW) ["TEST"]).1 ∧
      statementsKeyUnique (runBulkFetchJob emptyStore
        (fun _ => FetchOutcome.ok tickerW) ["TEST"]).1) :=
  C2_fetch_ops_preserve_key_uniqueness emptyStore "TEST" tickerW
    (fun _ => FetchOutcome.ok tickerW) ["TEST"] (by decide) (by decide)
    (by decide)
    (fun s u h => by
      have hu : u = tickerW := by injection h with h'; exact h'.symm
      subst hu
      decide)
